import Mathlib

/-!
# Verification of the fkbb incremental aggregation engine

A shallow embedding, in Lean 4, of the station-identity resolution and
incremental aggregation engine of `scripts/process_data.py`, together with
theorems settling the specification claims about it.

Conventions of the embedding:

* Python floats (coordinates, durations in minutes) are modelled as exact
  rationals `ℚ`; Python's `round(x, n)` (round-half-to-even) is modelled by
  `pyRound`.
* `generate_station_uuid` hashes the decimal rendering of the rounded
  coordinate pair with MD5 and formats the digest as a UUID.  The rendering
  and the hash are deterministic functions of the rounded pair, and the
  pipeline relies on the hash being injective on those strings (a collision
  would silently merge two stations).  We therefore model the identity key
  by the rounded coordinate pair itself.
* Python `dict`s keyed by identity keys are modelled as association lists
  in insertion order (Python dicts preserve insertion order); Python `set`s
  accumulated by the registry are modelled as duplicate-free lists built by
  `addToSet` (only membership in them is ever claimed).
* Pandas operations are modelled on lists of rows: `drop_duplicates` keeps
  the first occurrence of each row, `groupby` aggregation is a fold over
  the group's rows, and `idxmin` is the first row attaining the minimum.
* The haversine distance uses real trigonometric functions; it is modelled
  over `ℝ` separately (`haversine_distance`).  Inside the rational pipeline
  the distance column is an opaque parameter `dist` of the aggregation,
  standing for the float computation applied to the evidence row's
  coordinates; no claim depends on its values, only on which coordinates
  are fed to it.
-/

/-- Python's `round` to an integer: round-half-to-even (banker's rounding),
the semantics of `round(float)` used via `round(x, 6)` in
`generate_station_uuid`. -/
def roundHalfEven (q : ℚ) : ℤ :=
  if q - ⌊q⌋ < 1/2 then ⌊q⌋
  else if 1/2 < q - ⌊q⌋ then ⌊q⌋ + 1
  else if ⌊q⌋ % 2 = 0 then ⌊q⌋ else ⌊q⌋ + 1

/-- Python's `round(x, p)`: scale by `10^p`, round half to even, scale back. -/
def pyRound (q : ℚ) (p : ℕ) : ℚ := (roundHalfEven (q * 10 ^ p) : ℚ) / 10 ^ p

/-- `generate_station_uuid` (process_data.py:16-27): round both coordinates
to 6 decimal places and derive the station key from the rounded pair.  The
source renders the pair as `f"{lat},{lng}"` and takes the MD5 digest as a
UUID; both steps are deterministic and (absent MD5 collisions) injective in
the rounded pair, so the key is modelled by the rounded pair itself. -/
def generate_station_uuid (lat lng : ℚ) : ℚ × ℚ :=
  (pyRound lat 6, pyRound lng 6)

theorem roundHalfEven_intCast (n : ℤ) : roundHalfEven (n : ℚ) = n := by
  simp [roundHalfEven]

theorem pyRound_idem (q : ℚ) (p : ℕ) : pyRound (pyRound q p) p = pyRound q p := by
  unfold pyRound
  rw [div_mul_cancel₀ _ (by positivity : ((10 : ℚ) ^ p) ≠ 0), roundHalfEven_intCast]

/-- One canonical trip row after the validity filter of
`download_and_process_data` (process_data.py:335-347): every field present.
Timestamps are carried as opaque strings (`started_at` stands for the
formatted `started_at` value stored as the evidence date). -/
structure Trip where
  ride_id : String
  start_station_id : String
  start_station_name : String
  start_lat : ℚ
  start_lng : ℚ
  end_station_id : String
  end_station_name : String
  end_lat : ℚ
  end_lng : ℚ
  duration_minutes : ℚ
  started_at : String
deriving DecidableEq, Repr

/-- One registry entry of `create_station_registry` (process_data.py:43-51):
first-seen coordinates, last-written display name, and the accumulated sets
of raw ids and names (Python sets, modelled as duplicate-free lists). -/
structure StationInfo where
  lat : ℚ
  lng : ℚ
  current_name : String
  bluebike_ids : List String
  all_names : List String
deriving DecidableEq, Repr

/-- Identity keys: the rounded coordinate pair (see `generate_station_uuid`). -/
abbrev Key : Type := ℚ × ℚ

/-- The station registry: a Python dict keyed by station uuid, in insertion
order. -/
abbrev Registry : Type := List (Key × StationInfo)

/-- Python `set.add` on a set modelled as a duplicate-free list. -/
def addToSet (x : String) (l : List String) : List String :=
  if x ∈ l then l else l ++ [x]

/-- Lookup in a Python dict modelled as an association list. -/
def alistFind {κ β : Type} [DecidableEq κ] (l : List (κ × β)) (k : κ) : Option β :=
  match l with
  | [] => none
  | (k', v) :: t => if k' = k then some v else alistFind t k

/-- In-place update of the value at a key (Python mutates the stored dict). -/
def alistModify {κ β : Type} [DecidableEq κ] (l : List (κ × β)) (k : κ) (f : β → β) :
    List (κ × β) :=
  match l with
  | [] => []
  | (k', v) :: t =>
    if k' = k then (k', f v) :: alistModify t k f else (k', v) :: alistModify t k f

/-- Python dict assignment `d[k] = v`: overwrite in place, or append. -/
def alistUpsert {κ β : Type} [DecidableEq κ] (l : List (κ × β)) (k : κ) (v : β) :
    List (κ × β) :=
  match l with
  | [] => [(k, v)]
  | (k', v') :: t => if k' = k then (k, v) :: t else (k', v') :: alistUpsert t k v

/-- `pandas.drop_duplicates`: keep the first occurrence of each row. -/
def dedupFirstAux {α : Type} [DecidableEq α] (seen : List α) : List α → List α
  | [] => []
  | a :: l => if a ∈ seen then dedupFirstAux seen l else a :: dedupFirstAux (a :: seen) l

/-- `pandas.drop_duplicates` keeping first occurrences. -/
def dedupFirst {α : Type} [DecidableEq α] (l : List α) : List α :=
  dedupFirstAux [] l

/-- One endpoint observation row: the projection of a trip to
`(station_id, station_name, lat, lng)` used by `create_station_registry`. -/
structure Obs where
  station_id : String
  station_name : String
  lat : ℚ
  lng : ℚ
deriving DecidableEq, Repr

/-- The start-endpoint projection `df[['start_station_id', ...]]`. -/
def startObs (t : Trip) : Obs :=
  ⟨t.start_station_id, t.start_station_name, t.start_lat, t.start_lng⟩

/-- The end-endpoint projection `df[['end_station_id', ...]]`. -/
def endObs (t : Trip) : Obs :=
  ⟨t.end_station_id, t.end_station_name, t.end_lat, t.end_lng⟩

/-- The per-observation mutation of a registry entry
(process_data.py:53-55): add the raw id and the name, overwrite
`current_name` (last-write-wins). -/
def obsUpd (o : Obs) (s : StationInfo) : StationInfo :=
  { s with
    bluebike_ids := addToSet o.station_id s.bluebike_ids
    all_names := addToSet o.station_name s.all_names
    current_name := o.station_name }

/-- The fresh registry entry created at first sight of a key
(process_data.py:44-51): coordinates are the observation's raw values. -/
def initEntry (o : Obs) : StationInfo :=
  ⟨o.lat, o.lng, o.station_name, [], []⟩

@[simp] theorem obsUpd_lat (o : Obs) (s : StationInfo) : (obsUpd o s).lat = s.lat := rfl

@[simp] theorem obsUpd_lng (o : Obs) (s : StationInfo) : (obsUpd o s).lng = s.lng := rfl

@[simp] theorem obsUpd_current_name (o : Obs) (s : StationInfo) :
    (obsUpd o s).current_name = o.station_name := rfl

@[simp] theorem obsUpd_bluebike_ids (o : Obs) (s : StationInfo) :
    (obsUpd o s).bluebike_ids = addToSet o.station_id s.bluebike_ids := rfl

@[simp] theorem obsUpd_all_names (o : Obs) (s : StationInfo) :
    (obsUpd o s).all_names = addToSet o.station_name s.all_names := rfl

@[simp] theorem initEntry_lat (o : Obs) : (initEntry o).lat = o.lat := rfl

@[simp] theorem initEntry_lng (o : Obs) : (initEntry o).lng = o.lng := rfl

/-- The body of the per-row loop of `create_station_registry`
(process_data.py:37-55 and 61-79): create the entry at the key if absent
(first-seen coordinates), then apply `obsUpd` at the key. -/
def addObservation (reg : Registry) (o : Obs) : Registry :=
  alistModify
    (match alistFind reg (generate_station_uuid o.lat o.lng) with
      | some _ => reg
      | none => reg ++ [(generate_station_uuid o.lat o.lng, initEntry o)])
    (generate_station_uuid o.lat o.lng) (obsUpd o)

/-- `create_station_registry` (process_data.py:29-87): deduplicate the start
and end endpoint projections (the `dropna` is vacuous, the input rows being
already complete), then fold all observations — starts first, then ends —
into the registry.  The final conversion of the sets to sorted lists is not
modelled; claims about the sets are membership claims. -/
def create_station_registry (trips : List Trip) : Registry :=
  (dedupFirst (trips.map startObs) ++ dedupFirst (trips.map endObs)).foldl
    addObservation []

theorem alistFind_modify_self {κ β : Type} [DecidableEq κ] (l : List (κ × β)) (k : κ)
    (f : β → β) : alistFind (alistModify l k f) k = (alistFind l k).map f := by
  induction l with
  | nil => rfl
  | cons e t ih =>
    obtain ⟨k', v⟩ := e
    by_cases h : k' = k <;> simp [alistModify, alistFind, h] at ih ⊢ <;> exact ih

theorem alistFind_modify_ne {κ β : Type} [DecidableEq κ] (l : List (κ × β)) {k k₁ : κ}
    (f : β → β) (h : k₁ ≠ k) : alistFind (alistModify l k f) k₁ = alistFind l k₁ := by
  induction l with
  | nil => rfl
  | cons e t ih =>
    obtain ⟨k', v⟩ := e
    by_cases hk : k' = k
    · have hne : ¬k' = k₁ := by rw [hk]; exact fun e => h e.symm
      simp only [alistModify, if_pos hk, alistFind, if_neg hne]
      exact ih
    · by_cases hk1 : k' = k₁
      · simp [alistModify, alistFind, hk, hk1, h]
      · simp only [alistModify, if_neg hk, alistFind, if_neg hk1]
        exact ih

theorem alistFind_append_some {κ β : Type} [DecidableEq κ] {l₁ : List (κ × β)}
    (l₂ : List (κ × β)) {k : κ} {v : β} (h : alistFind l₁ k = some v) :
    alistFind (l₁ ++ l₂) k = some v := by
  induction l₁ with
  | nil => simp [alistFind] at h
  | cons e t ih =>
    obtain ⟨k', v'⟩ := e
    by_cases hk : k' = k <;> simp [alistFind, hk] at h ⊢ <;> simp_all

theorem alistFind_append_none {κ β : Type} [DecidableEq κ] {l₁ : List (κ × β)}
    (l₂ : List (κ × β)) {k : κ} (h : alistFind l₁ k = none) :
    alistFind (l₁ ++ l₂) k = alistFind l₂ k := by
  induction l₁ with
  | nil => rfl
  | cons e t ih =>
    obtain ⟨k', v'⟩ := e
    by_cases hk : k' = k <;> simp [alistFind, hk] at h ⊢ <;> simp_all

theorem alistFind_mem {κ β : Type} [DecidableEq κ] {l : List (κ × β)} {k : κ} {v : β}
    (h : alistFind l k = some v) : (k, v) ∈ l := by
  induction l with
  | nil => simp [alistFind] at h
  | cons e t ih =>
    obtain ⟨k', v'⟩ := e
    by_cases hk : k' = k <;> simp [alistFind, hk] at h <;> simp_all

theorem alistFind_upsert_self {κ β : Type} [DecidableEq κ] (l : List (κ × β)) (k : κ)
    (v : β) : alistFind (alistUpsert l k v) k = some v := by
  induction l with
  | nil => simp [alistUpsert, alistFind]
  | cons e t ih =>
    obtain ⟨k', v'⟩ := e
    by_cases hk : k' = k <;> simp [alistUpsert, alistFind, hk] <;> exact ih

theorem alistFind_upsert_ne {κ β : Type} [DecidableEq κ] (l : List (κ × β)) {k k₁ : κ}
    (v : β) (h : k₁ ≠ k) : alistFind (alistUpsert l k v) k₁ = alistFind l k₁ := by
  induction l with
  | nil => simp [alistUpsert, alistFind, Ne.symm h]
  | cons e t ih =>
    obtain ⟨k', v'⟩ := e
    by_cases hk : k' = k
    · have hne : ¬k' = k₁ := by rw [hk]; exact fun e => h e.symm
      have hne' : ¬k = k₁ := fun e => h e.symm
      simp only [alistUpsert, if_pos hk, alistFind, if_neg hne, if_neg hne']
    · by_cases hk1 : k' = k₁
      · simp [alistUpsert, alistFind, hk, hk1, h]
      · simp only [alistUpsert, if_neg hk, alistFind, if_neg hk1]
        exact ih

theorem mem_dedupFirstAux {α : Type} [DecidableEq α] {a : α} {l seen : List α} :
    a ∈ dedupFirstAux seen l ↔ a ∈ l ∧ a ∉ seen := by
  induction l generalizing seen with
  | nil => simp [dedupFirstAux]
  | cons b t ih =>
    by_cases hb : b ∈ seen
    · simp only [dedupFirstAux, if_pos hb, ih, List.mem_cons]
      constructor
      · rintro ⟨h1, h2⟩; exact ⟨Or.inr h1, h2⟩
      · rintro ⟨h1 | h1, h2⟩
        · exact absurd (h1 ▸ hb) h2
        · exact ⟨h1, h2⟩
    · simp only [dedupFirstAux, if_neg hb, List.mem_cons, ih, List.mem_cons]
      by_cases hab : a = b
      · subst hab; simp [hb]
      · simp [hab]

theorem mem_dedupFirst {α : Type} [DecidableEq α] {a : α} {l : List α} :
    a ∈ dedupFirst l ↔ a ∈ l := by
  simp [dedupFirst, mem_dedupFirstAux]

theorem mem_addToSet_self (x : String) (l : List String) : x ∈ addToSet x l := by
  by_cases h : x ∈ l <;> simp [addToSet, h]

theorem mem_addToSet_of_mem {y : String} (x : String) {l : List String} (h : y ∈ l) :
    y ∈ addToSet x l := by
  by_cases hx : x ∈ l <;> simp [addToSet, hx, h]

/-- The identity key an endpoint observation resolves to. -/
def obsKey (o : Obs) : Key := generate_station_uuid o.lat o.lng

/-- All endpoint observation rows of a batch (starts and ends). -/
def endpointObservations (trips : List Trip) : List Obs :=
  trips.map startObs ++ trips.map endObs

/-- The registry resolves `o`: its key is present, and the raw id and name
of `o` have been accumulated into the entry's sets. -/
def RegHasObs (reg : Registry) (o : Obs) : Prop :=
  ∃ info, alistFind reg (obsKey o) = some info ∧
    o.station_id ∈ info.bluebike_ids ∧ o.station_name ∈ info.all_names

theorem addObservation_present {reg : Registry} {o : Obs} {s : StationInfo}
    (h : alistFind reg (generate_station_uuid o.lat o.lng) = some s) :
    addObservation reg o
      = alistModify reg (generate_station_uuid o.lat o.lng) (obsUpd o) := by
  unfold addObservation
  rw [h]

theorem addObservation_absent {reg : Registry} {o : Obs}
    (h : alistFind reg (generate_station_uuid o.lat o.lng) = none) :
    addObservation reg o
      = alistModify (reg ++ [(generate_station_uuid o.lat o.lng, initEntry o)])
          (generate_station_uuid o.lat o.lng) (obsUpd o) := by
  unfold addObservation
  rw [h]

theorem regHasObs_addObservation_self (reg : Registry) (o : Obs) :
    RegHasObs (addObservation reg o) o := by
  cases h : alistFind reg (generate_station_uuid o.lat o.lng) with
  | some s =>
    rw [addObservation_present h]
    refine ⟨obsUpd o s, ?_, by simp [mem_addToSet_self], by simp [mem_addToSet_self]⟩
    rw [obsKey, alistFind_modify_self, h, Option.map_some']
  | none =>
    rw [addObservation_absent h]
    have h2 : alistFind (reg ++ [(generate_station_uuid o.lat o.lng, initEntry o)])
        (generate_station_uuid o.lat o.lng) = some (initEntry o) := by
      rw [alistFind_append_none _ h]
      simp [alistFind]
    refine ⟨obsUpd o (initEntry o), ?_, by simp [mem_addToSet_self],
      by simp [mem_addToSet_self]⟩
    rw [obsKey, alistFind_modify_self, h2, Option.map_some']

theorem regHasObs_addObservation_of (reg : Registry) (o o' : Obs)
    (h : RegHasObs reg o') : RegHasObs (addObservation reg o) o' := by
  obtain ⟨info, hf, hid, hname⟩ := h
  by_cases hk : generate_station_uuid o.lat o.lng = obsKey o'
  · have hsome : alistFind reg (generate_station_uuid o.lat o.lng) = some info := by
      rw [hk]; exact hf
    rw [addObservation_present hsome]
    refine ⟨obsUpd o info, ?_, by simp [mem_addToSet_of_mem _ hid],
      by simp [mem_addToSet_of_mem _ hname]⟩
    rw [← hk, alistFind_modify_self, hsome, Option.map_some']
  · cases h2 : alistFind reg (generate_station_uuid o.lat o.lng) with
    | some s =>
      rw [addObservation_present h2]
      exact ⟨info, by rw [alistFind_modify_ne _ _ (fun e => hk e.symm)]; exact hf,
        hid, hname⟩
    | none =>
      rw [addObservation_absent h2]
      refine ⟨info, ?_, hid, hname⟩
      rw [alistFind_modify_ne _ _ (fun e => hk e.symm)]
      exact alistFind_append_some _ hf

theorem regHasObs_foldl_of (l : List Obs) (reg : Registry) (o' : Obs)
    (h : RegHasObs reg o') : RegHasObs (l.foldl addObservation reg) o' := by
  induction l generalizing reg with
  | nil => exact h
  | cons a t ih => exact ih _ (regHasObs_addObservation_of _ _ _ h)

theorem regHasObs_foldl_mem {l : List Obs} {o : Obs} (h : o ∈ l) (reg : Registry) :
    RegHasObs (l.foldl addObservation reg) o := by
  induction l generalizing reg with
  | nil => cases h
  | cons a t ih =>
    rcases List.mem_cons.mp h with rfl | h'
    · exact regHasObs_foldl_of t _ _ (regHasObs_addObservation_self reg o)
    · exact ih h' _

theorem regHasObs_registry {trips : List Trip} {o : Obs}
    (h : o ∈ endpointObservations trips) :
    RegHasObs (create_station_registry trips) o := by
  unfold create_station_registry
  apply regHasObs_foldl_mem
  rcases List.mem_append.mp h with h' | h'
  · exact List.mem_append.mpr (Or.inl (mem_dedupFirst.mpr h'))
  · exact List.mem_append.mpr (Or.inr (mem_dedupFirst.mpr h'))

/-- Every registry entry is stored at the key generated from its own
(first-seen) coordinates. -/
def RegKeysSound (reg : Registry) : Prop :=
  ∀ p ∈ reg, generate_station_uuid p.2.lat p.2.lng = p.1

theorem mem_alistModify {κ β : Type} [DecidableEq κ] {l : List (κ × β)} {k : κ}
    {f : β → β} {p : κ × β} (hp : p ∈ alistModify l k f) :
    ∃ q ∈ l, p.1 = q.1 ∧ (p.2 = q.2 ∨ p.2 = f q.2) := by
  induction l with
  | nil => cases hp
  | cons e t ih =>
    obtain ⟨k', v⟩ := e
    by_cases hk : k' = k
    · rw [alistModify, if_pos hk] at hp
      rcases List.mem_cons.mp hp with rfl | hp'
      · exact ⟨(k', v), List.mem_cons_self _ _, rfl, Or.inr rfl⟩
      · obtain ⟨q, hq, h1, h2⟩ := ih hp'
        exact ⟨q, List.mem_cons_of_mem _ hq, h1, h2⟩
    · rw [alistModify, if_neg hk] at hp
      rcases List.mem_cons.mp hp with rfl | hp'
      · exact ⟨(k', v), List.mem_cons_self _ _, rfl, Or.inl rfl⟩
      · obtain ⟨q, hq, h1, h2⟩ := ih hp'
        exact ⟨q, List.mem_cons_of_mem _ hq, h1, h2⟩

theorem regKeysSound_addObservation {reg : Registry} (h : RegKeysSound reg)
    (o : Obs) : RegKeysSound (addObservation reg o) := by
  intro p hp
  unfold addObservation at hp
  obtain ⟨q, hq, h1, h2⟩ := mem_alistModify hp
  have hq' : generate_station_uuid q.2.lat q.2.lng = q.1 := by
    cases hfind : alistFind reg (generate_station_uuid o.lat o.lng) with
    | some s =>
      rw [hfind] at hq
      exact h q hq
    | none =>
      rw [hfind] at hq
      rcases List.mem_append.mp hq with hq2 | hq2
      · exact h q hq2
      · rcases List.mem_singleton.mp hq2 with rfl
        rfl
  have hlat : p.2.lat = q.2.lat := by rcases h2 with h2 | h2 <;> simp [h2]
  have hlng : p.2.lng = q.2.lng := by rcases h2 with h2 | h2 <;> simp [h2]
  rw [hlat, hlng, hq', h1]

theorem regKeysSound_foldl (l : List Obs) {reg : Registry} (h : RegKeysSound reg) :
    RegKeysSound (l.foldl addObservation reg) := by
  induction l generalizing reg with
  | nil => exact h
  | cons a t ih => exact ih (regKeysSound_addObservation h a)

theorem regKeysSound_registry (trips : List Trip) :
    RegKeysSound (create_station_registry trips) :=
  regKeysSound_foldl _ (fun _ hp => by cases hp)

/-- C6: for every coordinate pair, `generate_station_uuid lat lng` equals
`generate_station_uuid (round lat 6) (round lng 6)`, and the key is a
deterministic function of the rounded coordinates: any two coordinate pairs
with equal 6-decimal roundings yield the same key (no randomness or
process-dependent state: the key is a pure function). -/
theorem C6_identity_key_stable :
    ∀ lat lng : ℚ,
      generate_station_uuid lat lng
        = generate_station_uuid (pyRound lat 6) (pyRound lng 6) ∧
      ∀ lat' lng' : ℚ, pyRound lat' 6 = pyRound lat 6 →
        pyRound lng' 6 = pyRound lng 6 →
        generate_station_uuid lat' lng' = generate_station_uuid lat lng := by
  intro lat lng
  constructor
  · simp [generate_station_uuid, pyRound_idem]
  · intro lat' lng' h1 h2
    simp [generate_station_uuid, h1, h2]

theorem C6_identity_key_stable_witness :
    pyRound (423600004/10000000 : ℚ) 6 = pyRound (4236/100 : ℚ) 6 ∧
    pyRound (-7109/100 : ℚ) 6 = pyRound (-7109/100 : ℚ) 6 ∧
    generate_station_uuid (423600004/10000000 : ℚ) (-7109/100)
      = generate_station_uuid (4236/100 : ℚ) (-7109/100) := by
  have h1 : pyRound (423600004/10000000 : ℚ) 6 = pyRound (4236/100 : ℚ) 6 := by
    norm_num [pyRound, roundHalfEven]
  exact ⟨h1, rfl, (C6_identity_key_stable (4236/100) (-7109/100)).2 _ _ h1 rfl⟩

/-- C5: within a batch, any two endpoint observations whose coordinates
round to the same value at 6 decimals resolve to the same identity key
(regardless of raw ids and names), and the registry entry at that key
contains both raw ids in its `bluebike_ids` set. -/
theorem C5_same_rounded_coords_one_identity :
    ∀ (trips : List Trip) (o₁ o₂ : Obs),
      o₁ ∈ endpointObservations trips → o₂ ∈ endpointObservations trips →
      pyRound o₁.lat 6 = pyRound o₂.lat 6 → pyRound o₁.lng 6 = pyRound o₂.lng 6 →
      obsKey o₁ = obsKey o₂ ∧
      ∃ info, alistFind (create_station_registry trips) (obsKey o₁) = some info ∧
        o₁.station_id ∈ info.bluebike_ids ∧ o₂.station_id ∈ info.bluebike_ids := by
  intro trips o₁ o₂ h₁ h₂ hlat hlng
  have hk : obsKey o₁ = obsKey o₂ := by
    simp [obsKey, generate_station_uuid, hlat, hlng]
  obtain ⟨i₁, f₁, id₁, -⟩ := regHasObs_registry h₁
  obtain ⟨i₂, f₂, id₂, -⟩ := regHasObs_registry h₂
  refine ⟨hk, i₁, f₁, id₁, ?_⟩
  rw [hk] at f₁
  rw [f₂] at f₁
  exact (Option.some.inj f₁) ▸ id₂

/-- The example batch of the spec's identity-resolution test: raw ids `"12"`
and `"012X"` observed at coordinates that round to the same 6-decimal
value. -/
def tripC5 : Trip :=
  { ride_id := "r1"
    start_station_id := "12"
    start_station_name := "Main St"
    start_lat := 4236/100
    start_lng := -7109/100
    end_station_id := "012X"
    end_station_name := "Main St (new)"
    end_lat := 423600004/10000000
    end_lng := -7109/100
    duration_minutes := 5
    started_at := "2024-01-01 00:00:00" }

theorem C5_same_rounded_coords_one_identity_witness :
    (startObs tripC5 ∈ endpointObservations [tripC5]) ∧
    (endObs tripC5 ∈ endpointObservations [tripC5]) ∧
    pyRound (startObs tripC5).lat 6 = pyRound (endObs tripC5).lat 6 ∧
    pyRound (startObs tripC5).lng 6 = pyRound (endObs tripC5).lng 6 ∧
    (obsKey (startObs tripC5) = obsKey (endObs tripC5) ∧
      ∃ info,
        alistFind (create_station_registry [tripC5]) (obsKey (startObs tripC5))
          = some info ∧
        (startObs tripC5).station_id ∈ info.bluebike_ids ∧
        (endObs tripC5).station_id ∈ info.bluebike_ids) := by
  have h₁ : startObs tripC5 ∈ endpointObservations [tripC5] := by
    simp [endpointObservations]
  have h₂ : endObs tripC5 ∈ endpointObservations [tripC5] := by
    simp [endpointObservations]
  have hlat : pyRound (startObs tripC5).lat 6 = pyRound (endObs tripC5).lat 6 := by
    norm_num [startObs, endObs, tripC5, pyRound, roundHalfEven]
  have hlng : pyRound (startObs tripC5).lng 6 = pyRound (endObs tripC5).lng 6 := rfl
  exact ⟨h₁, h₂, hlat, hlng,
    C5_same_rounded_coords_one_identity [tripC5] _ _ h₁ h₂ hlat hlng⟩

/-- The coordinate→uuid lookup of `add_station_uuids_to_dataframe`
(process_data.py:92-96): for each registry entry, map the 6-decimal
rounding of its stored (first-seen) coordinates to its uuid.  Later entries
overwrite earlier ones in the Python dict; with sound keys the binding is
the identity on keys, so only lookup success matters and overwrite order is
irrelevant. -/
def coord_to_uuid (reg : Registry) : List (Key × Key) :=
  reg.map fun p => ((pyRound p.2.lat 6, pyRound p.2.lng 6), p.1)

/-- The per-row uuid resolution of `add_station_uuids_to_dataframe`
(process_data.py:99-106): look up both rounded endpoint coordinates,
`none` standing for pandas `NaN`. -/
def mapTripUuids (reg : Registry) (t : Trip) : Option (Key × Key) :=
  match alistFind (coord_to_uuid reg) (pyRound t.start_lat 6, pyRound t.start_lng 6),
      alistFind (coord_to_uuid reg) (pyRound t.end_lat 6, pyRound t.end_lng 6) with
  | some s, some e => some (s, e)
  | _, _ => none

/-- A trip row carrying the `start_station_uuid` / `end_station_uuid`
columns added by `add_station_uuids_to_dataframe`. -/
structure TripU where
  trip : Trip
  start_station_uuid : Key
  end_station_uuid : Key
deriving DecidableEq, Repr

/-- `add_station_uuids_to_dataframe` (process_data.py:89-116): resolve both
endpoints of every row and drop the rows where either lookup failed
(`dropna` on the uuid columns). -/
def add_station_uuids_to_dataframe (trips : List Trip) (reg : Registry) :
    List TripU :=
  trips.filterMap fun t => (mapTripUuids reg t).map fun p => ⟨t, p.1, p.2⟩

/-- The rows dropped by the defensive `dropna` of
`add_station_uuids_to_dataframe` (process_data.py:108-114). -/
def droppedTrips (trips : List Trip) (reg : Registry) : List Trip :=
  trips.filter fun t => (mapTripUuids reg t).isNone

theorem alistFind_of_map_self {reg : Registry} {k : Key} {info : StationInfo}
    (hsound : RegKeysSound reg) (h : alistFind reg k = some info) :
    alistFind (coord_to_uuid reg) (pyRound info.lat 6, pyRound info.lng 6)
      = some k := by
  induction reg with
  | nil => cases h
  | cons e t ih =>
    obtain ⟨k', v⟩ := e
    rw [alistFind] at h
    simp only [coord_to_uuid, List.map_cons, alistFind]
    by_cases hk : k' = k
    · rw [if_pos hk] at h
      have hv : v = info := Option.some.inj h
      subst hv
      rw [if_pos rfl, hk]
    · rw [if_neg hk] at h
      by_cases hc : ((pyRound v.lat 6, pyRound v.lng 6) : Key)
          = (pyRound info.lat 6, pyRound info.lng 6)
      · exfalso
        apply hk
        have h1 : generate_station_uuid v.lat v.lng = k' :=
          hsound (k', v) (List.mem_cons_self _ _)
        have h2 : generate_station_uuid info.lat info.lng = k :=
          hsound (k, info) (List.mem_cons_of_mem _ (alistFind_mem h))
        rw [← h1, ← h2, generate_station_uuid, generate_station_uuid, hc]
      · rw [if_neg hc]
        exact ih (fun p hp => hsound p (List.mem_cons_of_mem _ hp)) h

theorem coord_to_uuid_find_self {reg : Registry} (hsound : RegKeysSound reg)
    {k : Key} {info : StationInfo} (h : alistFind reg k = some info) :
    alistFind (coord_to_uuid reg) k = some k := by
  have h2 : generate_station_uuid info.lat info.lng = k :=
    hsound (k, info) (alistFind_mem h)
  have h3 := alistFind_of_map_self hsound h
  rw [generate_station_uuid] at h2
  rw [h2] at h3
  exact h3

theorem mapTripUuids_registry_some {trips : List Trip} {t : Trip} (h : t ∈ trips) :
    mapTripUuids (create_station_registry trips) t
      = some (obsKey (startObs t), obsKey (endObs t)) := by
  have hsound := regKeysSound_registry trips
  have hmem₁ : startObs t ∈ endpointObservations trips :=
    List.mem_append.mpr (Or.inl (List.mem_map_of_mem _ h))
  have hmem₂ : endObs t ∈ endpointObservations trips :=
    List.mem_append.mpr (Or.inr (List.mem_map_of_mem _ h))
  obtain ⟨i₁, f₁, -, -⟩ := regHasObs_registry hmem₁
  obtain ⟨i₂, f₂, -, -⟩ := regHasObs_registry hmem₂
  unfold mapTripUuids
  rw [show ((pyRound t.start_lat 6, pyRound t.start_lng 6) : Key)
        = obsKey (startObs t) from rfl,
    show ((pyRound t.end_lat 6, pyRound t.end_lng 6) : Key)
        = obsKey (endObs t) from rfl,
    coord_to_uuid_find_self hsound f₁, coord_to_uuid_find_self hsound f₂]

/-- C10: when the registry was built by `create_station_registry` from
exactly the batch's trips, `add_station_uuids_to_dataframe` resolves both
endpoints of every trip, so the defensive unmappable-coordinate drop
removes zero rows. -/
theorem C10_no_unmappable_rows :
    ∀ trips : List Trip,
      droppedTrips trips (create_station_registry trips) = [] ∧
      ∀ t : Trip, t ∈ trips →
        (mapTripUuids (create_station_registry trips) t).isSome = true := by
  intro trips
  constructor
  · rw [droppedTrips, List.filter_eq_nil]
    intro t ht
    rw [mapTripUuids_registry_some ht]
    simp
  · intro t ht
    rw [mapTripUuids_registry_some ht]
    rfl

theorem C10_no_unmappable_rows_witness :
    droppedTrips [tripC5] (create_station_registry [tripC5]) = [] ∧
    (tripC5 ∈ [tripC5] ∧
      (mapTripUuids (create_station_registry [tripC5]) tripC5).isSome = true) := by
  refine ⟨(C10_no_unmappable_rows [tripC5]).1, List.mem_singleton_self _, ?_⟩
  exact (C10_no_unmappable_rows [tripC5]).2 tripC5 (List.mem_singleton_self _)

/-- A raw CSV trip row before the validity filter
(process_data.py:323-334): the fields checked by the filter may be missing
(`none` stands for pandas `NaN`/`NaT`). -/
structure RawTrip where
  ride_id : String
  start_station_id : Option String
  start_station_name : Option String
  start_lat : Option ℚ
  start_lng : Option ℚ
  end_station_id : Option String
  end_station_name : Option String
  end_lat : Option ℚ
  end_lng : Option ℚ
  duration_minutes : ℚ
  started_at : String
deriving DecidableEq, Repr

/-- The validity filter of `download_and_process_data`
(process_data.py:335-347): a row survives iff its duration is strictly
between 1 and 1440 minutes and all eight checked fields are present. -/
def toValidTrip (r : RawTrip) : Option Trip :=
  match r.start_station_id, r.start_station_name, r.start_lat, r.start_lng,
      r.end_station_id, r.end_station_name, r.end_lat, r.end_lng with
  | some sid, some sname, some slat, some slng,
      some eid, some ename, some elat, some elng =>
    if 1 < r.duration_minutes ∧ r.duration_minutes < 1440 then
      some ⟨r.ride_id, sid, sname, slat, slng, eid, ename, elat, elng,
        r.duration_minutes, r.started_at⟩
    else none
  | _, _, _, _, _, _, _, _ => none

/-- The filtered dataframe (process_data.py:336-347). -/
def filterValidTrips (rows : List RawTrip) : List Trip :=
  rows.filterMap toValidTrip

/-- `download_and_process_data` (process_data.py:286-358), from the point
where the dataframe is normalized: filter invalid trips, build the station
registry from the filtered rows, and add the uuid columns. -/
def download_and_process_data (rows : List RawTrip) : List TripU × Registry :=
  (add_station_uuids_to_dataframe (filterValidTrips rows)
      (create_station_registry (filterValidTrips rows)),
    create_station_registry (filterValidTrips rows))

theorem toValidTrip_isSome_iff (r : RawTrip) :
    (toValidTrip r).isSome = true ↔
      (1 < r.duration_minutes ∧ r.duration_minutes < 1440 ∧
        r.start_station_name.isSome = true ∧ r.end_station_name.isSome = true ∧
        r.start_station_id.isSome = true ∧ r.end_station_id.isSome = true ∧
        r.start_lat.isSome = true ∧ r.start_lng.isSome = true ∧
        r.end_lat.isSome = true ∧ r.end_lng.isSome = true) := by
  obtain ⟨rid, sid, sname, slat, slng, eid, ename, elat, elng, dur, sat⟩ := r
  cases sid <;> cases sname <;> cases slat <;> cases slng <;>
    cases eid <;> cases ename <;> cases elat <;> cases elng <;>
    simp [toValidTrip, apply_ite Option.isSome] <;>
    try tauto

theorem toValidTrip_bounds {r : RawTrip} {t : Trip} (h : toValidTrip r = some t) :
    1 < t.duration_minutes ∧ t.duration_minutes < 1440 := by
  obtain ⟨rid, sid, sname, slat, slng, eid, ename, elat, elng, dur, sat⟩ := r
  cases sid <;> cases sname <;> cases slat <;> cases slng <;>
    cases eid <;> cases ename <;> cases elat <;> cases elng <;>
    simp [toValidTrip] at h
  obtain ⟨hc, ht⟩ := h
  subst ht
  exact hc

theorem mem_add_station_uuids {df : List Trip} {reg : Registry} {tu : TripU}
    (h : tu ∈ add_station_uuids_to_dataframe df reg) : tu.trip ∈ df := by
  unfold add_station_uuids_to_dataframe at h
  obtain ⟨t, ht, hmap⟩ := List.mem_filterMap.mp h
  obtain ⟨p, -, he⟩ := Option.map_eq_some'.mp hmap
  cases he
  exact ht

/-- C9: a trip contributes to the batch pipeline only if its duration is
strictly between 1 and 1440 minutes and all of its name, id and coordinate
fields are present; out-of-bounds or incomplete rows are excluded before
identity resolution and aggregation (the uuid-carrying dataframe that feeds
the pair table only contains rows surviving the filter). -/
theorem C9_validity_filter :
    ∀ rows : List RawTrip,
      (∀ r : RawTrip, r ∈ rows →
        ((toValidTrip r).isSome = true ↔
          (1 < r.duration_minutes ∧ r.duration_minutes < 1440 ∧
            r.start_station_name.isSome = true ∧ r.end_station_name.isSome = true ∧
            r.start_station_id.isSome = true ∧ r.end_station_id.isSome = true ∧
            r.start_lat.isSome = true ∧ r.start_lng.isSome = true ∧
            r.end_lat.isSome = true ∧ r.end_lng.isSome = true))) ∧
      (∀ tu : TripU, tu ∈ (download_and_process_data rows).1 →
        ∃ r ∈ rows, toValidTrip r = some tu.trip ∧
          1 < tu.trip.duration_minutes ∧ tu.trip.duration_minutes < 1440) := by
  intro rows
  refine ⟨fun r _ => toValidTrip_isSome_iff r, fun tu htu => ?_⟩
  have h1 : tu.trip ∈ filterValidTrips rows := mem_add_station_uuids htu
  obtain ⟨r, hr, hvr⟩ := List.mem_filterMap.mp h1
  exact ⟨r, hr, hvr, toValidTrip_bounds hvr⟩

/-- A complete raw row used to witness the validity filter. -/
def rawC9 : RawTrip :=
  { ride_id := "r9"
    start_station_id := some "A"
    start_station_name := some "A name"
    start_lat := some 0
    start_lng := some 0
    end_station_id := some "B"
    end_station_name := some "B name"
    end_lat := some 10
    end_lng := some 0
    duration_minutes := 5
    started_at := "2024-02-01 00:00:00" }

/-- The filtered form of `rawC9`. -/
def tripC9 : Trip :=
  ⟨"r9", "A", "A name", 0, 0, "B", "B name", 10, 0, 5, "2024-02-01 00:00:00"⟩

theorem C9_validity_filter_witness :
    (rawC9 ∈ [rawC9] ∧ (toValidTrip rawC9).isSome = true) ∧
    ((⟨tripC9, obsKey (startObs tripC9), obsKey (endObs tripC9)⟩ : TripU)
        ∈ (download_and_process_data [rawC9]).1 ∧
      ∃ r ∈ [rawC9],
        toValidTrip r
            = some (⟨tripC9, obsKey (startObs tripC9), obsKey (endObs tripC9)⟩ :
              TripU).trip ∧
          1 < (⟨tripC9, obsKey (startObs tripC9), obsKey (endObs tripC9)⟩ :
              TripU).trip.duration_minutes ∧
          (⟨tripC9, obsKey (startObs tripC9), obsKey (endObs tripC9)⟩ :
              TripU).trip.duration_minutes < 1440) := by
  have hv : toValidTrip rawC9 = some tripC9 := by
    norm_num [toValidTrip, rawC9, tripC9]
  have hdf : filterValidTrips [rawC9] = [tripC9] := by
    simp [filterValidTrips, hv]
  have hsome : (toValidTrip rawC9).isSome = true := by rw [hv]; rfl
  have hmem : (⟨tripC9, obsKey (startObs tripC9), obsKey (endObs tripC9)⟩ : TripU)
      ∈ (download_and_process_data [rawC9]).1 := by
    show _ ∈ add_station_uuids_to_dataframe (filterValidTrips [rawC9])
      (create_station_registry (filterValidTrips [rawC9]))
    rw [hdf]
    simp [add_station_uuids_to_dataframe,
      mapTripUuids_registry_some (List.mem_singleton_self tripC9)]
  exact ⟨⟨List.mem_singleton_self _, hsome⟩, hmem,
    (C9_validity_filter [rawC9]).2 _ hmem⟩

/-- The groupby key of a row: the ordered `(start, end)` uuid pair. -/
def tripPair (t : TripU) : Key × Key :=
  (t.start_station_uuid, t.end_station_uuid)

/-- The rows of one `groupby(['start_station_uuid', 'end_station_uuid'])`
group. -/
def groupTrips (rows : List TripU) (p : Key × Key) : List TripU :=
  rows.filter fun t => tripPair t = p

/-- The distinct group keys.  (Pandas emits groups sorted by key; no claim
depends on the relative order of different pairs in the table, so the
embedding keeps first-occurrence order.) -/
def pairsOf (rows : List TripU) : List (Key × Key) :=
  dedupFirst (rows.map tripPair)

/-- The `'duration_minutes': 'min'` aggregation over one group. -/
def minDuration : List TripU → ℚ
  | [] => 0
  | t :: ts => ts.foldl (fun m u => min m u.trip.duration_minutes) t.trip.duration_minutes

/-- `idxmin` over one group: the first row attaining the minimum duration
(process_data.py:395). -/
def firstMinTrip (g : List TripU) : Option TripU :=
  g.find? fun t => t.trip.duration_minutes = minDuration g

/-- One row of the per-batch pair table produced by
`calculate_fastest_times` (process_data.py:378-417): the group key, the
minimum duration, the trip count, the evidence row's columns, and the
distance column computed from the evidence row's coordinates. -/
structure PairRow where
  start_station_uuid : Key
  end_station_uuid : Key
  fastest_time_minutes : ℚ
  trip_count : ℕ
  start_station_name : String
  end_station_name : String
  start_lat : ℚ
  start_lng : ℚ
  end_lat : ℚ
  end_lng : ℚ
  started_at : String
  ride_id : String
  distance_km : ℚ
deriving DecidableEq, Repr

/-- `calculate_fastest_times` (process_data.py:378-417), parametrized by the
distance computation `dist` (the float haversine, modelled over `ℝ` by
`haversine_distance` below): per ordered pair, aggregate the minimum
duration and the row count, join the (unique) `idxmin` evidence row back
in, and compute `distance_km` from the evidence row's raw coordinates. -/
def calculate_fastest_times (dist : ℚ → ℚ → ℚ → ℚ → ℚ) (rows : List TripU) :
    List PairRow :=
  (pairsOf rows).filterMap fun p =>
    (firstMinTrip (groupTrips rows p)).map fun ev =>
      { start_station_uuid := p.1
        end_station_uuid := p.2
        fastest_time_minutes := minDuration (groupTrips rows p)
        trip_count := (groupTrips rows p).length
        start_station_name := ev.trip.start_station_name
        end_station_name := ev.trip.end_station_name
        start_lat := ev.trip.start_lat
        start_lng := ev.trip.start_lng
        end_lat := ev.trip.end_lat
        end_lng := ev.trip.end_lng
        started_at := ev.trip.started_at
        ride_id := ev.trip.ride_id
        distance_km :=
          dist ev.trip.start_lat ev.trip.start_lng ev.trip.end_lat ev.trip.end_lng }

theorem foldl_min_le_init (l : List TripU) (a : ℚ) :
    l.foldl (fun m u => min m u.trip.duration_minutes) a ≤ a := by
  induction l generalizing a with
  | nil => exact le_refl a
  | cons t ts ih => exact le_trans (ih _) (min_le_left _ _)

theorem foldl_min_le_mem {l : List TripU} {t : TripU} (h : t ∈ l) (a : ℚ) :
    l.foldl (fun m u => min m u.trip.duration_minutes) a
      ≤ t.trip.duration_minutes := by
  induction l generalizing a with
  | nil => cases h
  | cons u us ih =>
    rcases List.mem_cons.mp h with rfl | h'
    · rw [List.foldl_cons]
      exact le_trans (foldl_min_le_init us _) (min_le_right _ _)
    · rw [List.foldl_cons]
      exact ih h' _

theorem foldl_min_eq_init_or_mem (l : List TripU) (a : ℚ) :
    l.foldl (fun m u => min m u.trip.duration_minutes) a = a ∨
      ∃ t ∈ l, l.foldl (fun m u => min m u.trip.duration_minutes) a
        = t.trip.duration_minutes := by
  induction l generalizing a with
  | nil => exact Or.inl rfl
  | cons u us ih =>
    rcases ih (min a u.trip.duration_minutes) with h | ⟨t, ht, h⟩
    · rcases min_cases a u.trip.duration_minutes with ⟨he, -⟩ | ⟨he, -⟩
      · exact Or.inl (by rw [List.foldl_cons, h, he])
      · exact Or.inr ⟨u, List.mem_cons_self _ _, by rw [List.foldl_cons, h, he]⟩
    · exact Or.inr ⟨t, List.mem_cons_of_mem _ ht, by rw [List.foldl_cons, h]⟩

theorem minDuration_le {g : List TripU} {t : TripU} (h : t ∈ g) :
    minDuration g ≤ t.trip.duration_minutes := by
  cases g with
  | nil => cases h
  | cons u us =>
    rcases List.mem_cons.mp h with rfl | h'
    · exact foldl_min_le_init _ _
    · exact foldl_min_le_mem h' _

theorem minDuration_mem {g : List TripU} (h : g ≠ []) :
    ∃ t ∈ g, t.trip.duration_minutes = minDuration g := by
  cases g with
  | nil => exact absurd rfl h
  | cons u us =>
    rcases foldl_min_eq_init_or_mem us u.trip.duration_minutes with h' | ⟨t, ht, h'⟩
    · exact ⟨u, List.mem_cons_self _ _, by rw [minDuration, h']⟩
    · exact ⟨t, List.mem_cons_of_mem _ ht, by rw [minDuration, h']⟩

theorem firstMinTrip_spec {g : List TripU} (h : g ≠ []) :
    ∃ ev, firstMinTrip g = some ev ∧ ev ∈ g ∧
      ev.trip.duration_minutes = minDuration g := by
  obtain ⟨t, ht, hd⟩ := minDuration_mem h
  have hs : (g.find? fun u =>
      u.trip.duration_minutes = minDuration g).isSome = true := by
    rw [List.find?_isSome]
    exact ⟨t, ht, by simpa using hd⟩
  obtain ⟨ev, hev⟩ := Option.isSome_iff_exists.mp hs
  refine ⟨ev, hev, List.mem_of_find?_eq_some hev, ?_⟩
  simpa using List.find?_some hev

theorem pair_row_in_table (dist : ℚ → ℚ → ℚ → ℚ → ℚ) {rows : List TripU}
    {t : TripU} (h : t ∈ rows) :
    ∃ r ∈ calculate_fastest_times dist rows,
      r.start_station_uuid = t.start_station_uuid ∧
      r.end_station_uuid = t.end_station_uuid ∧
      r.trip_count = (groupTrips rows (tripPair t)).length ∧
      (∃ u ∈ groupTrips rows (tripPair t),
        u.trip.duration_minutes = r.fastest_time_minutes) ∧
      ∀ u ∈ groupTrips rows (tripPair t),
        r.fastest_time_minutes ≤ u.trip.duration_minutes := by
  have hp : tripPair t ∈ pairsOf rows :=
    mem_dedupFirst.mpr (List.mem_map_of_mem _ h)
  have htg : t ∈ groupTrips rows (tripPair t) := by
    simp [groupTrips, List.mem_filter, h]
  have hg : groupTrips rows (tripPair t) ≠ [] := by
    intro he
    rw [he] at htg
    cases htg
  obtain ⟨ev, hev, hevmem, hevd⟩ := firstMinTrip_spec hg
  refine ⟨_, List.mem_filterMap.mpr ⟨tripPair t, hp, by rw [hev]; rfl⟩,
    rfl, rfl, rfl, ⟨ev, hevmem, hevd⟩, fun u hu => minDuration_le hu⟩

/-- Python `int()`: truncation toward zero. -/
def pyInt (q : ℚ) : ℤ := if 0 ≤ q then ⌊q⌋ else ⌈q⌉

/-- Python `x % 1` on a float: `x - floor(x)` (the result carries the sign
of the divisor `1`, hence is the nonnegative fractional part). -/
def pyMod1 (q : ℚ) : ℚ := q - ⌊q⌋

/-- Python's `:02d`: pad a one-digit nonnegative integer with a zero. -/
def pad2 (n : ℤ) : String :=
  if 0 ≤ n ∧ n < 10 then "0" ++ toString n else toString n

/-- The duration display format `f"{int(m)}:{int((m % 1) * 60):02d}"`
(process_data.py:471). -/
def format_time (m : ℚ) : String :=
  toString (pyInt m) ++ ":" ++ pad2 (pyInt (pyMod1 m * 60))

theorem pyInt_of_nonneg {q : ℚ} (h : 0 ≤ q) : pyInt q = ⌊q⌋ := if_pos h

theorem format_time_floor_law {m : ℚ} (h : 0 ≤ m) :
    format_time m = toString ⌊m⌋ ++ ":" ++ pad2 ⌊(m - ⌊m⌋) * 60⌋ := by
  have hfrac : (0 : ℚ) ≤ m - ⌊m⌋ := sub_nonneg.mpr (Int.floor_le m)
  have h60 : (0 : ℚ) ≤ (m - ⌊m⌋) * 60 := mul_nonneg hfrac (by norm_num)
  rw [format_time, pyMod1, pyInt_of_nonneg h, pyInt_of_nonneg h60]

/-- First example trip of the spec's pair-table test: A→B in 7.5 minutes. -/
def tu1C8 : TripU :=
  ⟨⟨"r1", "76", "A", 4236/100, -71094/1000, "110", "B", 42365/1000, -7109/100,
      15/2, "2024-03-01 10:00:00"⟩,
    (4236/100, -71094/1000), (42365/1000, -7109/100)⟩

/-- Second example trip: same endpoints, 5.0 minutes. -/
def tu2C8 : TripU :=
  ⟨⟨"r2", "76", "A", 4236/100, -71094/1000, "110", "B", 42365/1000, -7109/100,
      5, "2024-03-02 11:00:00"⟩,
    (4236/100, -71094/1000), (42365/1000, -7109/100)⟩

/-- The spec's example batch: two A→B trips of 7.5 and 5.0 minutes. -/
def tripsC8 : List TripU := [tu1C8, tu2C8]

/-- The pair-table row the example batch produces (evidence: the 5.0-minute
trip `tu2C8`). -/
def rowC8 (dist : ℚ → ℚ → ℚ → ℚ → ℚ) : PairRow :=
  { start_station_uuid := (4236/100, -71094/1000)
    end_station_uuid := (42365/1000, -7109/100)
    fastest_time_minutes := 5
    trip_count := 2
    start_station_name := "A"
    end_station_name := "B"
    start_lat := 4236/100
    start_lng := -71094/1000
    end_lat := 42365/1000
    end_lng := -7109/100
    started_at := "2024-03-02 11:00:00"
    ride_id := "r2"
    distance_km := dist (4236/100) (-71094/1000) (42365/1000) (-7109/100) }

theorem tripsC8_table (dist : ℚ → ℚ → ℚ → ℚ → ℚ) :
    rowC8 dist ∈ calculate_fastest_times dist tripsC8 ∧
      (rowC8 dist).fastest_time_minutes = 5 ∧ (rowC8 dist).trip_count = 2 ∧
      format_time (rowC8 dist).fastest_time_minutes = "5:00" := by
  have hpairs : pairsOf tripsC8
      = [((4236/100, -71094/1000), (42365/1000, -7109/100))] := by
    norm_num [pairsOf, tripsC8, tu1C8, tu2C8, tripPair, dedupFirst, dedupFirstAux]
  have hgroup : groupTrips tripsC8 ((4236/100, -71094/1000), (42365/1000, -7109/100))
      = [tu1C8, tu2C8] := by
    norm_num [groupTrips, tripsC8, tu1C8, tu2C8, tripPair]
  have hmin : minDuration [tu1C8, tu2C8] = 5 := by
    norm_num [minDuration, tu1C8, tu2C8, min_def]
  have hfind : firstMinTrip [tu1C8, tu2C8] = some tu2C8 := by
    rw [firstMinTrip, hmin]
    norm_num [List.find?, tu1C8, tu2C8]
  have hfmt : format_time 5 = "5:00" := by
    have h1 : pyInt 5 = 5 := by
      rw [pyInt_of_nonneg (by norm_num)]
      norm_num
    have h2 : pyInt (pyMod1 5 * 60) = 0 := by
      rw [pyMod1]
      norm_num [pyInt]
    rw [format_time, h1, h2]
    rfl
  have hmem : rowC8 dist ∈ calculate_fastest_times dist tripsC8 := by
    apply List.mem_filterMap.mpr
    refine ⟨((4236/100, -71094/1000), (42365/1000, -7109/100)), ?_, ?_⟩
    · rw [hpairs]
      exact List.mem_singleton_self _
    · rw [hgroup, hfind, hmin]
      rfl
  exact ⟨hmem, rfl, rfl, hfmt⟩

/-- C8: the per-batch pair table gives each ordered pair the minimum
duration among the batch's trips for that pair (`fastest_time_minutes`) and
the count of the batch's trips for that pair (`trip_count`, published as
`attempts`); the display format of a minutes value `m` is
`floor(m):floor((m mod 1)*60)` zero-padded to two digits (7.5 → "7:30");
and the two-trip example batch (7.5 and 5.0 minutes over the same
endpoints) yields fastest 5.0, formatted "5:00", attempts 2. -/
theorem C8_per_batch_aggregation :
    (∀ (dist : ℚ → ℚ → ℚ → ℚ → ℚ) (rows : List TripU) (t : TripU), t ∈ rows →
      ∃ r ∈ calculate_fastest_times dist rows,
        r.start_station_uuid = t.start_station_uuid ∧
        r.end_station_uuid = t.end_station_uuid ∧
        r.trip_count = (groupTrips rows (tripPair t)).length ∧
        (∃ u ∈ groupTrips rows (tripPair t),
          u.trip.duration_minutes = r.fastest_time_minutes) ∧
        ∀ u ∈ groupTrips rows (tripPair t),
          r.fastest_time_minutes ≤ u.trip.duration_minutes) ∧
    (∀ m : ℚ, 0 ≤ m →
      format_time m = toString ⌊m⌋ ++ ":" ++ pad2 ⌊(m - ⌊m⌋) * 60⌋) ∧
    format_time (15/2) = "7:30" ∧
    (∀ dist : ℚ → ℚ → ℚ → ℚ → ℚ,
      rowC8 dist ∈ calculate_fastest_times dist tripsC8 ∧
        (rowC8 dist).fastest_time_minutes = 5 ∧ (rowC8 dist).trip_count = 2 ∧
        format_time (rowC8 dist).fastest_time_minutes = "5:00") := by
  refine ⟨fun dist rows t h => pair_row_in_table dist h,
    fun m h => format_time_floor_law h, ?_, tripsC8_table⟩
  have h1 : pyInt (15/2) = 7 := by
    rw [pyInt_of_nonneg (by norm_num)]
    norm_num
  have h2 : pyInt (pyMod1 (15/2) * 60) = 30 := by
    rw [pyMod1]
    norm_num [pyInt]
  rw [format_time, h1, h2]
  rfl

theorem C8_per_batch_aggregation_witness :
    (tu1C8 ∈ tripsC8 ∧
      ∃ r ∈ calculate_fastest_times (fun _ _ _ _ => 0) tripsC8,
        r.start_station_uuid = tu1C8.start_station_uuid ∧
        r.end_station_uuid = tu1C8.end_station_uuid ∧
        r.trip_count = (groupTrips tripsC8 (tripPair tu1C8)).length ∧
        (∃ u ∈ groupTrips tripsC8 (tripPair tu1C8),
          u.trip.duration_minutes = r.fastest_time_minutes) ∧
        ∀ u ∈ groupTrips tripsC8 (tripPair tu1C8),
          r.fastest_time_minutes ≤ u.trip.duration_minutes) ∧
    ((0 : ℚ) ≤ 15/2 ∧
      format_time (15/2)
        = toString ⌊(15/2 : ℚ)⌋ ++ ":" ++ pad2 ⌊((15/2 : ℚ) - ⌊(15/2 : ℚ)⌋) * 60⌋) := by
  have hmem : tu1C8 ∈ tripsC8 := by
    simp [tripsC8]
  have h0 : (0 : ℚ) ≤ 15/2 := by norm_num
  exact ⟨⟨hmem, C8_per_batch_aggregation.1 (fun _ _ _ _ => 0) tripsC8 tu1C8 hmem⟩,
    h0, C8_per_batch_aggregation.2.1 (15/2) h0⟩

/-- One destination entry of the cumulative per-station table
(process_data.py:467-476): the published pair aggregate.  `trip_count` is
published as `attempts`, `date` holds the evidence timestamp. -/
structure Destination where
  uuid : Key
  name : String
  fastest_time_minutes : ℚ
  fastest_time_formatted : String
  trip_count : ℕ
  distance_km : ℚ
  ride_id : String
  date : String
deriving DecidableEq, Repr

/-- One cumulative station entry (process_data.py:451-459). -/
structure Station where
  uuid : Key
  name : String
  lat : Option ℚ
  lng : Option ℚ
  bluebike_ids : List String
  all_names : List String
  destinations : List (Key × Destination)
deriving DecidableEq, Repr

/-- The cumulative station table, a dict keyed by start-station uuid. -/
abbrev Stations : Type := List (Key × Station)

/-- `round(x, 2)` used when storing `distance_km` (process_data.py:473). -/
def pyRound2 (q : ℚ) : ℚ := pyRound q 2

/-- `sorted(list(set(a + b)))` (process_data.py:432-437): the set union of
two id/name lists; only membership in the result is ever claimed, so the
final sort is not modelled. -/
def listUnion (a b : List String) : List String :=
  b.foldl (fun acc x => addToSet x acc) a

/-- The registry merge of `create_station_data` (process_data.py:428-441):
union the id and name sets, overwrite `current_name` with the batch's
value; insert new keys verbatim. -/
def mergeRegistry (existing batch : Registry) : Registry :=
  batch.foldl
    (fun m e =>
      match alistFind m e.1 with
      | some old =>
        alistUpsert m e.1
          { old with
            bluebike_ids := listUnion old.bluebike_ids e.2.bluebike_ids
            all_names := listUnion old.all_names e.2.all_names
            current_name := e.2.current_name }
      | none => m ++ [e])
    existing

/-- The fresh station entry created when a start uuid is first seen
(process_data.py:449-459), taking its fields from the merged registry when
the uuid is present there. -/
def newStation (mreg : Registry) (r : PairRow) : Station :=
  match alistFind mreg r.start_station_uuid with
  | some info =>
    { uuid := r.start_station_uuid
      name := info.current_name
      lat := some info.lat
      lng := some info.lng
      bluebike_ids := info.bluebike_ids
      all_names := info.all_names
      destinations := [] }
  | none =>
    { uuid := r.start_station_uuid
      name := r.start_station_name
      lat := none
      lng := none
      bluebike_ids := []
      all_names := [r.start_station_name]
      destinations := [] }

/-- The destination entry written by the insert/replace branch
(process_data.py:467-476). -/
def newDest (mreg : Registry) (r : PairRow) : Destination :=
  { uuid := r.end_station_uuid
    name :=
      match alistFind mreg r.end_station_uuid with
      | some info => info.current_name
      | none => r.end_station_name
    fastest_time_minutes := r.fastest_time_minutes
    fastest_time_formatted := format_time r.fastest_time_minutes
    trip_count := r.trip_count
    distance_km := pyRound2 r.distance_km
    ride_id := r.ride_id
    date := r.started_at }

/-- The destination update of the per-row merge loop
(process_data.py:461-479): insert or replace the destination when it is
absent or the batch's time is strictly faster — the replace branch stores
`trip_count := r.trip_count`, the batch's count alone — otherwise add the
batch's `trip_count` to the existing destination. -/
def mergeDest (mreg : Registry) (r : PairRow) (st : Station) : Station :=
  match alistFind st.destinations r.end_station_uuid with
  | none =>
    { st with destinations :=
        alistUpsert st.destinations r.end_station_uuid (newDest mreg r) }
  | some d =>
    if r.fastest_time_minutes < d.fastest_time_minutes then
      { st with destinations :=
          alistUpsert st.destinations r.end_station_uuid (newDest mreg r) }
    else
      let d' : Destination := { d with trip_count := d.trip_count + r.trip_count }
      { st with destinations :=
          alistUpsert st.destinations r.end_station_uuid d' }

/-- The body of the per-row merge loop of `create_station_data`
(process_data.py:443-479): ensure the start station exists (inserting a
fresh one when absent), then apply `mergeDest` at the start uuid. -/
def mergePairRow (mreg : Registry) (stations : Stations) (r : PairRow) : Stations :=
  match alistFind stations r.start_station_uuid with
  | some _ => alistModify stations r.start_station_uuid (mergeDest mreg r)
  | none =>
    alistModify (stations ++ [(r.start_station_uuid, newStation mreg r)])
      r.start_station_uuid (mergeDest mreg r)

/-- `create_station_data` (process_data.py:419-481): merge the batch
registry into the cumulative one, then fold every pair-table row into the
cumulative station table. -/
def create_station_data (fastest_times : List PairRow) (station_registry : Registry)
    (existing_stations : Stations) (existing_registry : Registry) :
    Stations × Registry :=
  (fastest_times.foldl (mergePairRow (mergeRegistry existing_registry station_registry))
      existing_stations,
    mergeRegistry existing_registry station_registry)

/-- The cumulative pair aggregate at an ordered pair. -/
def pairLookup (stations : Stations) (s e : Key) : Option Destination :=
  (alistFind stations s).bind fun st => alistFind st.destinations e

/-- The ordered pair key of a pair-table row. -/
def rowPair (r : PairRow) : Key × Key :=
  (r.start_station_uuid, r.end_station_uuid)

theorem newStation_destinations (mreg : Registry) (r : PairRow) :
    (newStation mreg r).destinations = [] := by
  unfold newStation
  cases alistFind mreg r.start_station_uuid <;> rfl

theorem alistFind_append_singleton_ne {κ β : Type} [DecidableEq κ]
    {l : List (κ × β)} {k k₁ : κ} (v : β) (h : k₁ ≠ k) :
    alistFind (l ++ [(k, v)]) k₁ = alistFind l k₁ := by
  cases hf : alistFind l k₁ with
  | some w => exact alistFind_append_some _ hf
  | none =>
    rw [alistFind_append_none _ hf]
    simp [alistFind, Ne.symm h]

theorem mergeDest_find_ne (mreg : Registry) (r : PairRow) (st : Station) {e : Key}
    (h : e ≠ r.end_station_uuid) :
    alistFind (mergeDest mreg r st).destinations e = alistFind st.destinations e := by
  unfold mergeDest
  cases hd : alistFind st.destinations r.end_station_uuid with
  | none => exact alistFind_upsert_ne _ _ h
  | some d =>
    by_cases hf : r.fastest_time_minutes < d.fastest_time_minutes
    · simp only [if_pos hf]
      exact alistFind_upsert_ne _ _ h
    · simp only [if_neg hf]
      exact alistFind_upsert_ne _ _ h

theorem mergeDest_find_self (mreg : Registry) (r : PairRow) (st : Station) :
    alistFind (mergeDest mreg r st).destinations r.end_station_uuid
      = match alistFind st.destinations r.end_station_uuid with
        | none => some (newDest mreg r)
        | some d =>
          if r.fastest_time_minutes < d.fastest_time_minutes
          then some (newDest mreg r)
          else some { d with trip_count := d.trip_count + r.trip_count } := by
  unfold mergeDest
  cases hd : alistFind st.destinations r.end_station_uuid with
  | none => exact alistFind_upsert_self _ _ _
  | some d =>
    by_cases hf : r.fastest_time_minutes < d.fastest_time_minutes
    · simp only [if_pos hf]
      exact alistFind_upsert_self _ _ _
    · simp only [if_neg hf]
      exact alistFind_upsert_self _ _ _

theorem mergePairRow_self (mreg : Registry) (stations : Stations) (r : PairRow) :
    pairLookup (mergePairRow mreg stations r)
        r.start_station_uuid r.end_station_uuid
      = match pairLookup stations r.start_station_uuid r.end_station_uuid with
        | none => some (newDest mreg r)
        | some d =>
          if r.fastest_time_minutes < d.fastest_time_minutes
          then some (newDest mreg r)
          else some { d with trip_count := d.trip_count + r.trip_count } := by
  unfold mergePairRow pairLookup
  cases hs : alistFind stations r.start_station_uuid with
  | some st =>
    rw [alistFind_modify_self, hs, Option.map_some']
    simp only [Option.some_bind]
    rw [mergeDest_find_self]
  | none =>
    rw [alistFind_modify_self, alistFind_append_none _ hs]
    simp only [alistFind, eq_self_iff_true, if_true, Option.map_some',
      Option.some_bind, Option.none_bind]
    rw [mergeDest_find_self, newStation_destinations]
    rfl

theorem mergePairRow_frame (mreg : Registry) (stations : Stations) (r : PairRow)
    {s e : Key} (h : rowPair r ≠ (s, e)) :
    pairLookup (mergePairRow mreg stations r) s e = pairLookup stations s e := by
  unfold mergePairRow pairLookup
  by_cases hstart : r.start_station_uuid = s
  · have hend : r.end_station_uuid ≠ e := by
      intro he
      exact h (by rw [rowPair, hstart, he])
    subst hstart
    cases hs : alistFind stations r.start_station_uuid with
    | some st =>
      rw [alistFind_modify_self, hs, Option.map_some']
      simp only [Option.some_bind]
      exact mergeDest_find_ne _ _ _ (Ne.symm hend)
    | none =>
      rw [alistFind_modify_self, alistFind_append_none _ hs]
      simp only [alistFind, eq_self_iff_true, if_true, Option.map_some',
        Option.some_bind, Option.none_bind]
      rw [mergeDest_find_ne _ _ _ (Ne.symm hend), newStation_destinations]
      rfl
  · have hns : ¬s = r.start_station_uuid := fun he => hstart he.symm
    cases hs : alistFind stations r.start_station_uuid with
    | some st => rw [alistFind_modify_ne _ _ hns]
    | none => rw [alistFind_modify_ne _ _ hns, alistFind_append_singleton_ne _ hns]

theorem foldl_merge_frame (mreg : Registry) {rows : List PairRow} {s e : Key}
    (h : ∀ u ∈ rows, rowPair u ≠ (s, e)) (stations : Stations) :
    pairLookup (rows.foldl (mergePairRow mreg) stations) s e
      = pairLookup stations s e := by
  induction rows generalizing stations with
  | nil => rfl
  | cons a t ih =>
    rw [List.foldl_cons, ih (fun u hu => h u (List.mem_cons_of_mem _ hu)),
      mergePairRow_frame _ _ _ (h a (List.mem_cons_self _ _))]

theorem foldl_merge_pairwise (mreg : Registry) {rows : List PairRow}
    (hpw : rows.Pairwise fun a b => rowPair a ≠ rowPair b)
    {r : PairRow} (hr : r ∈ rows) (stations : Stations) :
    pairLookup (rows.foldl (mergePairRow mreg) stations)
        r.start_station_uuid r.end_station_uuid
      = match pairLookup stations r.start_station_uuid r.end_station_uuid with
        | none => some (newDest mreg r)
        | some d =>
          if r.fastest_time_minutes < d.fastest_time_minutes
          then some (newDest mreg r)
          else some { d with trip_count := d.trip_count + r.trip_count } := by
  induction rows generalizing stations with
  | nil => cases hr
  | cons a t ih =>
    obtain ⟨ha, hpw'⟩ := List.pairwise_cons.mp hpw
    rcases List.mem_cons.mp hr with rfl | hr'
    · rw [List.foldl_cons,
        foldl_merge_frame mreg (fun u hu => Ne.symm (ha u hu)) _,
        mergePairRow_self]
    · rw [List.foldl_cons, ih hpw' hr',
        mergePairRow_frame mreg stations a (ha r hr')]

/-- C4: for every merge of a batch pair table (one row per ordered pair)
into a cumulative table, every ordered pair present in both where the
batch's `fastest_time_minutes` is not strictly smaller keeps the cumulative
destination entry unchanged in every field — fastest time, formatted time,
evidence ride and date, name, distance — except `trip_count`, which grows
by exactly the batch's count. -/
theorem C4_keep_branch_accumulates :
    ∀ (rows : List PairRow) (sreg ereg : Registry) (stations : Stations)
      (r : PairRow) (d : Destination),
      rows.Pairwise (fun a b => rowPair a ≠ rowPair b) →
      r ∈ rows →
      pairLookup stations r.start_station_uuid r.end_station_uuid = some d →
      ¬r.fastest_time_minutes < d.fastest_time_minutes →
      pairLookup (create_station_data rows sreg stations ereg).1
          r.start_station_uuid r.end_station_uuid
        = some { d with trip_count := d.trip_count + r.trip_count } := by
  intro rows sreg ereg stations r d hpw hr hfound hslow
  show pairLookup (rows.foldl (mergePairRow (mergeRegistry ereg sreg)) stations)
      r.start_station_uuid r.end_station_uuid = _
  rw [foldl_merge_pairwise _ hpw hr, hfound]
  simp only [if_neg hslow]

/-- Identity key of the example start station. -/
def kA : Key := (0, 0)

/-- Identity key of the example end station. -/
def kB : Key := (10, 0)

/-- A cumulative destination entry: fastest 5.0 minutes over 10 attempts. -/
def destSlow : Destination :=
  { uuid := kB
    name := "B"
    fastest_time_minutes := 5
    fastest_time_formatted := "5:00"
    trip_count := 10
    distance_km := 1
    ride_id := "old"
    date := "2023-01-01 00:00:00" }

/-- The cumulative station entry holding `destSlow`. -/
def stationA : Station :=
  { uuid := kA
    name := "A"
    lat := some 0
    lng := some 0
    bluebike_ids := ["76"]
    all_names := ["A"]
    destinations := [(kB, destSlow)] }

/-- A cumulative state with the single pair A→B (fastest 5.0, attempts 10). -/
def stationsCum : Stations := [(kA, stationA)]

/-- A batch row improving the pair A→B: fastest 3.0, 1 attempt. -/
def rowFast : PairRow :=
  { start_station_uuid := kA
    end_station_uuid := kB
    fastest_time_minutes := 3
    trip_count := 1
    start_station_name := "A"
    end_station_name := "B"
    start_lat := 0
    start_lng := 0
    end_lat := 10
    end_lng := 0
    started_at := "2024-05-01 12:00:00"
    ride_id := "new"
    distance_km := 1 }

/-- A batch row slower than the cumulative pair: fastest 7.0, 4 attempts. -/
def rowSlower : PairRow :=
  { rowFast with fastest_time_minutes := 7, trip_count := 4, ride_id := "r-slower" }

/-- The batch row behind `destSlow`: fastest 5.0, 10 attempts. -/
def rowSlowB1 : PairRow :=
  { rowFast with fastest_time_minutes := 5, trip_count := 10, ride_id := "r-b1" }

theorem pairLookup_stationsCum : pairLookup stationsCum kA kB = some destSlow := by
  simp [pairLookup, stationsCum, stationA, alistFind]

theorem C4_keep_branch_accumulates_witness :
    (([rowSlower] : List PairRow).Pairwise (fun a b => rowPair a ≠ rowPair b) ∧
      rowSlower ∈ [rowSlower] ∧
      pairLookup stationsCum rowSlower.start_station_uuid
          rowSlower.end_station_uuid = some destSlow ∧
      ¬rowSlower.fastest_time_minutes < destSlow.fastest_time_minutes) ∧
    pairLookup (create_station_data [rowSlower] [] stationsCum []).1
        rowSlower.start_station_uuid rowSlower.end_station_uuid
      = some { destSlow with trip_count := destSlow.trip_count + rowSlower.trip_count } := by
  have hpw : ([rowSlower] : List PairRow).Pairwise
      (fun a b => rowPair a ≠ rowPair b) := by simp
  have hmem : rowSlower ∈ [rowSlower] := List.mem_singleton_self _
  have hfound : pairLookup stationsCum rowSlower.start_station_uuid
      rowSlower.end_station_uuid = some destSlow := pairLookup_stationsCum
  have hslow : ¬rowSlower.fastest_time_minutes < destSlow.fastest_time_minutes := by
    norm_num [rowSlower, rowFast, destSlow]
  exact ⟨⟨hpw, hmem, hfound, hslow⟩,
    C4_keep_branch_accumulates [rowSlower] [] [] stationsCum rowSlower destSlow
      hpw hmem hfound hslow⟩

/-- C1, evaluated on the code at the failing input: with a cumulative entry
A→B of fastest 5.0 and `trip_count` 10, merging a batch row of fastest 3.0
and `trip_count` 1 takes the replace branch and stores `trip_count = 1` —
the batch's count alone — although the spec requires the accumulated
`10 + 1`.  (The cumulative attempt count is discarded; it even decreases.) -/
theorem C1_replace_branch_discards_attempts :
    (pairLookup (create_station_data [rowFast] [] stationsCum []).1 kA kB).map
        (fun d => (d.fastest_time_minutes, d.trip_count))
      = some ((3 : ℚ), (1 : ℕ)) ∧ (1 : ℕ) ≠ 10 + 1 := by
  constructor
  · have hpw : ([rowFast] : List PairRow).Pairwise
        (fun a b => rowPair a ≠ rowPair b) := by simp
    have h := foldl_merge_pairwise (mergeRegistry [] []) hpw
      (List.mem_singleton_self rowFast) stationsCum
    rw [show pairLookup stationsCum rowFast.start_station_uuid
        rowFast.end_station_uuid = some destSlow from pairLookup_stationsCum] at h
    have hlt : rowFast.fastest_time_minutes < destSlow.fastest_time_minutes := by
      norm_num [rowFast, destSlow]
    simp only [if_pos hlt] at h
    have h2 : pairLookup (create_station_data [rowFast] [] stationsCum []).1 kA kB
        = some (newDest (mergeRegistry [] []) rowFast) := h
    rw [h2]
    simp [newDest, rowFast]
  · decide

/-- C2, evaluated on the code at the failing input: merging batch
B1 = {A→B: fastest 5.0, attempts 10} and batch B2 = {A→B: fastest 3.0,
attempts 1} into an empty cumulative state in the two orders.  The fastest
time is 3.0 (the minimum) in both orders, but the attempts are 1 in one
order and 11 in the other: the replace branch discards the accumulated
count, so the attempts merge is neither the sum nor order-independent. -/
theorem C2_attempts_depend_on_merge_order :
    ((pairLookup (create_station_data [rowFast] []
          (create_station_data [rowSlowB1] [] [] []).1 []).1 kA kB).map
        (fun d => (d.fastest_time_minutes, d.trip_count))
      = some ((3 : ℚ), (1 : ℕ))) ∧
    ((pairLookup (create_station_data [rowSlowB1] []
          (create_station_data [rowFast] [] [] []).1 []).1 kA kB).map
        (fun d => (d.fastest_time_minutes, d.trip_count))
      = some ((3 : ℚ), (11 : ℕ))) ∧
    (1 : ℕ) ≠ 10 + 1 ∧ (11 : ℕ) = 10 + 1 := by
  have hpw1 : ([rowSlowB1] : List PairRow).Pairwise
      (fun a b => rowPair a ≠ rowPair b) := by simp
  have hpw2 : ([rowFast] : List PairRow).Pairwise
      (fun a b => rowPair a ≠ rowPair b) := by simp
  have h1 : pairLookup (create_station_data [rowSlowB1] [] [] []).1 kA kB
      = some (newDest (mergeRegistry [] []) rowSlowB1) :=
    foldl_merge_pairwise (mergeRegistry [] []) hpw1
      (List.mem_singleton_self rowSlowB1) []
  have h3 : pairLookup (create_station_data [rowFast] [] [] []).1 kA kB
      = some (newDest (mergeRegistry [] []) rowFast) :=
    foldl_merge_pairwise (mergeRegistry [] []) hpw2
      (List.mem_singleton_self rowFast) []
  refine ⟨?_, ?_, by decide, by decide⟩
  · have h2 := foldl_merge_pairwise (mergeRegistry [] []) hpw2
      (List.mem_singleton_self rowFast) (create_station_data [rowSlowB1] [] [] []).1
    have h1' : pairLookup (create_station_data [rowSlowB1] [] [] []).1
        rowFast.start_station_uuid rowFast.end_station_uuid
        = some (newDest (mergeRegistry [] []) rowSlowB1) := h1
    rw [h1'] at h2
    have hlt : rowFast.fastest_time_minutes
        < (newDest (mergeRegistry [] []) rowSlowB1).fastest_time_minutes := by
      norm_num [newDest, rowFast, rowSlowB1]
    simp only [if_pos hlt] at h2
    have h2' : pairLookup (create_station_data [rowFast] []
        (create_station_data [rowSlowB1] [] [] []).1 []).1 kA kB
        = some (newDest (mergeRegistry [] []) rowFast) := h2
    rw [h2']
    simp [newDest, rowFast]
  · have h4 := foldl_merge_pairwise (mergeRegistry [] []) hpw1
      (List.mem_singleton_self rowSlowB1) (create_station_data [rowFast] [] [] []).1
    have h3' : pairLookup (create_station_data [rowFast] [] [] []).1
        rowSlowB1.start_station_uuid rowSlowB1.end_station_uuid
        = some (newDest (mergeRegistry [] []) rowFast) := h3
    rw [h3'] at h4
    have hnl : ¬rowSlowB1.fastest_time_minutes
        < (newDest (mergeRegistry [] []) rowFast).fastest_time_minutes := by
      norm_num [newDest, rowFast, rowSlowB1]
    simp only [if_neg hnl] at h4
    have h4' : pairLookup (create_station_data [rowSlowB1] []
        (create_station_data [rowFast] [] [] []).1 []).1 kA kB
        = some { newDest (mergeRegistry [] []) rowFast with
            trip_count := (newDest (mergeRegistry [] []) rowFast).trip_count
              + rowSlowB1.trip_count } := h4
    rw [h4']
    simp [newDest, rowFast, rowSlowB1]

/-- `extract_month_from_filename` (process_data.py:146-148): the first six
characters of the filename.  Strings are manipulated through their
character lists, the code-point semantics of Python slicing. -/
def extract_month_from_filename (f : String) : String :=
  ⟨f.data.take 6⟩

/-- The work-set computation of `main` (process_data.py:639-644): all
months of the known files, minus the processed ones, sorted ascending
(Python's `list.sort()` is lexicographic on strings, which is
oldest-to-newest for `YYYYMM`). -/
def unprocessed_months (files processed : List String) : List String :=
  List.insertionSort (fun a b => a.data ≤ b.data)
    ((files.map extract_month_from_filename).filter fun m => m ∉ processed)

/-- The file search of the month loop (process_data.py:661-665): the first
file whose name starts with the month. -/
def fileFor (m : String) (files : List String) : Option String :=
  files.find? fun f => f.data.take m.data.length = m.data

/-- The months the loop actually merges, in order
(process_data.py:659-708): the work set, skipping months with no file. -/
def mergeSequence (files processed : List String) : List String :=
  (unprocessed_months files processed).filter fun m => (fileFor m files).isSome

theorem take_length_take (l : List Char) (n : ℕ) :
    l.take (l.take n).length = l.take n := by
  rw [List.length_take]
  rcases le_total n l.length with h | h
  · rw [min_eq_left h]
  · rw [min_eq_right h, List.take_length, List.take_of_length_le h]

theorem mem_unprocessed_iff {files processed : List String} {m : String} :
    m ∈ unprocessed_months files processed ↔
      m ∈ files.map extract_month_from_filename ∧ m ∉ processed := by
  rw [unprocessed_months, List.mem_insertionSort, List.mem_filter]
  simp

theorem fileFor_isSome {files : List String} {m : String}
    (h : m ∈ files.map extract_month_from_filename) :
    (fileFor m files).isSome = true := by
  obtain ⟨f, hf, rfl⟩ := List.mem_map.mp h
  rw [fileFor, List.find?_isSome]
  refine ⟨f, hf, ?_⟩
  simp only [extract_month_from_filename, decide_eq_true_eq]
  exact take_length_take f.data 6

/-- C7: on startup the work set is exactly the months of the known files
minus the already-processed ones, sorted oldest-to-newest (lexicographic on
`YYYYMM`); the loop merges exactly that list in that order (every work-set
month has a file, since it was derived from one), and every month already
in `processed_months` is skipped entirely — it never appears in the merge
sequence. -/
theorem C7_skip_processed_batches :
    ∀ files processed : List String,
      (∀ m : String, m ∈ unprocessed_months files processed ↔
        (m ∈ files.map extract_month_from_filename ∧ m ∉ processed)) ∧
      List.Sorted (fun a b : String => a.data ≤ b.data)
        (unprocessed_months files processed) ∧
      mergeSequence files processed = unprocessed_months files processed ∧
      ∀ m ∈ processed, m ∉ mergeSequence files processed := by
  intro files processed
  have hsorted : List.Sorted (fun a b : String => a.data ≤ b.data)
      (unprocessed_months files processed) := by
    haveI : IsTotal String (fun a b : String => a.data ≤ b.data) :=
      ⟨fun a b => le_total a.data b.data⟩
    haveI : IsTrans String (fun a b : String => a.data ≤ b.data) :=
      ⟨fun a b c hab hbc => le_trans hab hbc⟩
    exact List.sorted_insertionSort _ _
  have hall : mergeSequence files processed = unprocessed_months files processed := by
    rw [mergeSequence, List.filter_eq_self]
    intro m hm
    exact fileFor_isSome (mem_unprocessed_iff.mp hm).1
  refine ⟨fun m => mem_unprocessed_iff, hsorted, hall, fun m hm hmem => ?_⟩
  rw [hall] at hmem
  exact (mem_unprocessed_iff.mp hmem).2 hm

theorem C7_skip_processed_batches_witness :
    ("202312" ∈ ["202312"] ∧
      "202312" ∉ mergeSequence
        ["202312-bluebikes-tripdata.zip", "202401-bluebikes-tripdata.zip"]
        ["202312"]) ∧
    ("202401" ∈ (["202312-bluebikes-tripdata.zip",
          "202401-bluebikes-tripdata.zip"].map extract_month_from_filename) ∧
      "202401" ∉ ["202312"] ∧
      "202401" ∈ unprocessed_months
        ["202312-bluebikes-tripdata.zip", "202401-bluebikes-tripdata.zip"]
        ["202312"]) := by
  have h := C7_skip_processed_batches
    ["202312-bluebikes-tripdata.zip", "202401-bluebikes-tripdata.zip"] ["202312"]
  have hm : ("202312" : String) ∈ ["202312"] := List.mem_singleton_self _
  have h1 : ("202401" : String) ∈ (["202312-bluebikes-tripdata.zip",
      "202401-bluebikes-tripdata.zip"].map extract_month_from_filename) := by
    decide
  have h2 : ("202401" : String) ∉ (["202312"] : List String) := by decide
  exact ⟨⟨hm, h.2.2.2 "202312" hm⟩, h1, h2, (h.1 "202401").mpr ⟨h1, h2⟩⟩

/-- `haversine_distance` (process_data.py:360-376) over the reals — the
mathematical meaning of the float computation: convert the four
coordinates to radians (`x * π / 180`), apply the haversine formula, and
scale by the Earth radius 6371 km. -/
noncomputable def haversine_distance (lat1 lng1 lat2 lng2 : ℝ) : ℝ :=
  2 * Real.arcsin (Real.sqrt
      (Real.sin ((lat2 * Real.pi / 180 - lat1 * Real.pi / 180) / 2) ^ 2
        + Real.cos (lat1 * Real.pi / 180) * Real.cos (lat2 * Real.pi / 180)
          * Real.sin ((lng2 * Real.pi / 180 - lng1 * Real.pi / 180) / 2) ^ 2))
    * 6371

theorem haversine_meridian (a b : ℝ) (h0 : 0 ≤ b - a) (h180 : b - a ≤ 180) :
    haversine_distance a 0 b 0 = 6371 * ((b - a) * Real.pi / 180) := by
  have hpi := Real.pi_pos
  unfold haversine_distance
  have e1 : (b * Real.pi / 180 - a * Real.pi / 180) / 2
      = (b - a) * Real.pi / 360 := by ring
  have e2 : ((0 : ℝ) * Real.pi / 180 - 0 * Real.pi / 180) / 2 = 0 := by ring
  rw [e1, e2, Real.sin_zero]
  have hθ0 : (0 : ℝ) ≤ (b - a) * Real.pi / 360 :=
    div_nonneg (mul_nonneg h0 hpi.le) (by norm_num)
  have hθle : (b - a) * Real.pi / 360 ≤ Real.pi / 2 := by
    rw [div_le_div_iff (by norm_num : (0:ℝ) < 360) (by norm_num : (0:ℝ) < 2)]
    nlinarith [mul_nonneg (sub_nonneg.mpr h180) hpi.le]
  have hsin : (0 : ℝ) ≤ Real.sin ((b - a) * Real.pi / 360) :=
    Real.sin_nonneg_of_nonneg_of_le_pi hθ0 (le_trans hθle (by linarith))
  rw [show Real.sin ((b - a) * Real.pi / 360) ^ 2
        + Real.cos (a * Real.pi / 180) * Real.cos (b * Real.pi / 180) * 0 ^ 2
      = Real.sin ((b - a) * Real.pi / 360) ^ 2 by ring]
  rw [Real.sqrt_sq_eq_abs, abs_of_nonneg hsin,
    Real.arcsin_sin (by linarith) hθle]
  ring

theorem haversine_perturbed_ne :
    haversine_distance ((1 : ℝ)/2500000) 0 10 0 ≠ haversine_distance 0 0 10 0 := by
  have h1 := haversine_meridian ((1 : ℝ)/2500000) 10 (by norm_num) (by norm_num)
  have h2 := haversine_meridian 0 10 (by norm_num) (by norm_num)
  rw [h1, h2]
  intro h
  have hpi := Real.pi_pos
  nlinarith [h]

/-- C3 amended: each pair row's `distance_km` is computed from the raw
endpoint coordinates of the evidence trip — the batch's first
fastest trip for the pair — not from the identities' first-seen
coordinates; it therefore depends on which trip (hence which batch)
achieved the fastest time. -/
theorem C3_distance_from_evidence_trip :
    ∀ (dist : ℚ → ℚ → ℚ → ℚ → ℚ) (rows : List TripU) (r : PairRow),
      r ∈ calculate_fastest_times dist rows →
      ∃ ev ∈ rows,
        ev.start_station_uuid = r.start_station_uuid ∧
        ev.end_station_uuid = r.end_station_uuid ∧
        ev.trip.duration_minutes = r.fastest_time_minutes ∧
        (∀ u ∈ rows, tripPair u = tripPair ev →
          r.fastest_time_minutes ≤ u.trip.duration_minutes) ∧
        r.start_lat = ev.trip.start_lat ∧ r.start_lng = ev.trip.start_lng ∧
        r.end_lat = ev.trip.end_lat ∧ r.end_lng = ev.trip.end_lng ∧
        r.distance_km
          = dist ev.trip.start_lat ev.trip.start_lng ev.trip.end_lat
              ev.trip.end_lng := by
  intro dist rows r hr
  obtain ⟨p, hp, hmap⟩ := List.mem_filterMap.mp hr
  obtain ⟨ev, hfind, heq⟩ := Option.map_eq_some'.mp hmap
  have hevg : ev ∈ groupTrips rows p := List.mem_of_find?_eq_some hfind
  have hevp : tripPair ev = p := by
    have h := (List.mem_filter.mp hevg).2
    simpa using h
  have hevrows : ev ∈ rows := (List.mem_filter.mp hevg).1
  have hevd : ev.trip.duration_minutes = minDuration (groupTrips rows p) := by
    simpa using List.find?_some hfind
  subst heq
  refine ⟨ev, hevrows, ?_, ?_, hevd, ?_, rfl, rfl, rfl, rfl, rfl⟩
  · rw [← hevp]
    rfl
  · rw [← hevp]
    rfl
  · intro u hu hup
    have hug : u ∈ groupTrips rows p := by
      rw [groupTrips, List.mem_filter]
      exact ⟨hu, by simp [hup, hevp]⟩
    exact minDuration_le hug

/-- First C3 example trip: A at (0,0) → B at (10,0), 5 minutes. -/
def t1C3 : Trip :=
  ⟨"r1", "A", "A name", 0, 0, "B", "B name", 10, 0, 5, "2024-04-01 00:00:00"⟩

/-- Second C3 example trip: A observed at (0.0000004, 0) — the same
identity after 6-decimal rounding, a different raw coordinate — → B at
(10,0), 3 minutes (the batch's fastest). -/
def t2C3 : Trip :=
  ⟨"r2", "A", "A name", 1/2500000, 0, "B", "B name", 10, 0, 3,
    "2024-04-02 00:00:00"⟩

/-- The C3 example batch. -/
def tripsC3 : List Trip := [t1C3, t2C3]

/-- The registry the C3 batch produces: first-seen coordinates (0,0) and
(10,0). -/
def regC3 : Registry :=
  [(((0 : ℚ), (0 : ℚ)), ⟨0, 0, "A name", ["A"], ["A name"]⟩),
    (((10 : ℚ), (0 : ℚ)), ⟨10, 0, "B name", ["B"], ["B name"]⟩)]

/-- The C3 trips with uuid columns attached. -/
def tuC3a : TripU := ⟨t1C3, ((0 : ℚ), (0 : ℚ)), ((10 : ℚ), (0 : ℚ))⟩

/-- The second C3 trip with uuid columns attached. -/
def tuC3b : TripU := ⟨t2C3, ((0 : ℚ), (0 : ℚ)), ((10 : ℚ), (0 : ℚ))⟩

theorem registry_tripsC3 : create_station_registry tripsC3 = regC3 := by
  norm_num [create_station_registry, dedupFirst, dedupFirstAux, startObs, endObs,
    tripsC3, t1C3, t2C3, addObservation, alistFind, alistModify, obsUpd,
    initEntry, addToSet, generate_station_uuid, pyRound, roundHalfEven,
    Prod.ext_iff, regC3]

theorem mapTripUuids_t1C3 :
    mapTripUuids regC3 t1C3 = some (((0 : ℚ), (0 : ℚ)), ((10 : ℚ), (0 : ℚ))) := by
  norm_num [mapTripUuids, coord_to_uuid, regC3, alistFind, t1C3, pyRound,
    roundHalfEven, Prod.ext_iff]

theorem mapTripUuids_t2C3 :
    mapTripUuids regC3 t2C3 = some (((0 : ℚ), (0 : ℚ)), ((10 : ℚ), (0 : ℚ))) := by
  norm_num [mapTripUuids, coord_to_uuid, regC3, alistFind, t2C3, pyRound,
    roundHalfEven, Prod.ext_iff]

theorem uuids_tripsC3 :
    add_station_uuids_to_dataframe tripsC3 regC3 = [tuC3a, tuC3b] := by
  simp only [add_station_uuids_to_dataframe, tripsC3, List.filterMap_cons,
    List.filterMap_nil, mapTripUuids_t1C3, mapTripUuids_t2C3, Option.map_some']
  rfl

/-- The single pair row of the C3 batch (evidence: the 3-minute trip
`tuC3b`), with the opaque distance function instantiated to zero. -/
def rowC3 : PairRow :=
  { start_station_uuid := ((0 : ℚ), (0 : ℚ))
    end_station_uuid := ((10 : ℚ), (0 : ℚ))
    fastest_time_minutes := 3
    trip_count := 2
    start_station_name := "A name"
    end_station_name := "B name"
    start_lat := 1/2500000
    start_lng := 0
    end_lat := 10
    end_lng := 0
    started_at := "2024-04-02 00:00:00"
    ride_id := "r2"
    distance_km := 0 }

theorem table_tripsC3 :
    calculate_fastest_times (fun _ _ _ _ => 0) [tuC3a, tuC3b] = [rowC3] := by
  have hpairs : pairsOf [tuC3a, tuC3b]
      = [(((0 : ℚ), (0 : ℚ)), ((10 : ℚ), (0 : ℚ)))] := by
    norm_num [pairsOf, tuC3a, tuC3b, tripPair, dedupFirst, dedupFirstAux]
  have hgroup : groupTrips [tuC3a, tuC3b] (((0 : ℚ), (0 : ℚ)), ((10 : ℚ), (0 : ℚ)))
      = [tuC3a, tuC3b] := by
    norm_num [groupTrips, tuC3a, tuC3b, tripPair]
  have hmin : minDuration [tuC3a, tuC3b] = 3 := by
    norm_num [minDuration, tuC3a, tuC3b, t1C3, t2C3, min_def]
  have hfind : firstMinTrip [tuC3a, tuC3b] = some tuC3b := by
    rw [firstMinTrip, hmin]
    norm_num [List.find?, tuC3a, tuC3b, t1C3, t2C3]
  simp only [calculate_fastest_times, hpairs, List.filterMap_cons,
    List.filterMap_nil, hgroup, hfind, hmin, Option.map_some']
  rfl

/-- C3 refuted at a concrete batch: the identities' first-seen coordinates
are (0,0) and (10,0), but the (unique) pair row's distance inputs are the
evidence trip's raw coordinates (0.0000004, 0, 10, 0), and the haversine
distance at those inputs differs from the haversine distance between the
first-seen coordinates.  So `distance_km` is not the great-circle distance
between the identities' first-seen coordinates, and its value depends on
which trip (hence which batch) computed it. -/
theorem C3_counterexample :
    ((alistFind (create_station_registry tripsC3) ((0 : ℚ), (0 : ℚ))).map
        (fun i => (i.lat, i.lng)) = some ((0 : ℚ), (0 : ℚ))) ∧
    ((alistFind (create_station_registry tripsC3) ((10 : ℚ), (0 : ℚ))).map
        (fun i => (i.lat, i.lng)) = some ((10 : ℚ), (0 : ℚ))) ∧
    ((calculate_fastest_times (fun _ _ _ _ => 0)
          (add_station_uuids_to_dataframe tripsC3
            (create_station_registry tripsC3))).map
        (fun r => (r.start_lat, r.start_lng, r.end_lat, r.end_lng))
      = [((1 : ℚ)/2500000, (0 : ℚ), (10 : ℚ), (0 : ℚ))]) ∧
    haversine_distance ((1 : ℝ)/2500000) 0 10 0 ≠ haversine_distance 0 0 10 0 := by
  refine ⟨?_, ?_, ?_, haversine_perturbed_ne⟩
  · rw [registry_tripsC3]
    norm_num [alistFind, regC3, Prod.ext_iff]
  · rw [registry_tripsC3]
    norm_num [alistFind, regC3, Prod.ext_iff]
  · rw [registry_tripsC3, uuids_tripsC3, table_tripsC3]
    rfl

theorem C3_distance_from_evidence_trip_witness :
    rowC3 ∈ calculate_fastest_times (fun _ _ _ _ => 0) [tuC3a, tuC3b] ∧
    ∃ ev ∈ [tuC3a, tuC3b],
      ev.start_station_uuid = rowC3.start_station_uuid ∧
      ev.end_station_uuid = rowC3.end_station_uuid ∧
      ev.trip.duration_minutes = rowC3.fastest_time_minutes ∧
      (∀ u ∈ [tuC3a, tuC3b], tripPair u = tripPair ev →
        rowC3.fastest_time_minutes ≤ u.trip.duration_minutes) ∧
      rowC3.start_lat = ev.trip.start_lat ∧ rowC3.start_lng = ev.trip.start_lng ∧
      rowC3.end_lat = ev.trip.end_lat ∧ rowC3.end_lng = ev.trip.end_lng ∧
      rowC3.distance_km
        = (fun _ _ _ _ => (0 : ℚ)) ev.trip.start_lat ev.trip.start_lng
            ev.trip.end_lat ev.trip.end_lng := by
  have hmem : rowC3 ∈ calculate_fastest_times (fun _ _ _ _ => 0) [tuC3a, tuC3b] := by
    rw [table_tripsC3]
    exact List.mem_singleton_self _
  exact ⟨hmem,
    C3_distance_from_evidence_trip (fun _ _ _ _ => 0) [tuC3a, tuC3b] rowC3 hmem⟩
